import Mathlib

/-
Verification development for the store repository (BaseStore / MemoryStore in
src/unnamed/part_000, and the Sort query in src/src/query/Sort.ts).

Embedding conventions, stated once here and referenced below:

* JavaScript/TypeScript values handled by the store are modelled by the
  inductive type JsVal (null, undefined, booleans, integer numbers, strings,
  arrays, plain objects as ordered field lists).
* The store state is modelled as the record of the fields the methods read and
  write (data, map, version, queries, isLive); a derived view's source store is
  passed explicitly.  Constructor wiring is not modelled: claims quantify over
  store states.  Derived views reference their ultimate root source directly
  (getOptions passes source or self, so sources never chain), hence a two-level
  hierarchy (view state + optional root source state) is faithful.
* The snapshot's mechanical slips are normalised without changing any
  algorithmic content: the MemoryStore body names the ordered data both
  this.data and this.collection (one field, modelled as data); callbacks
  passed to then/map/forEach are treated as bound to the store instance;
  getIds over a collection is the per-item id extraction used by getId; the
  singular results of _add/_delete are wrapped in one-element lists where the
  caller maps over them, and the singular item argument the callers hand to
  _put is treated as the one-element batch its items branch processes.  All index arithmetic, version arithmetic, branching,
  argument passing (spread versus non-spread) and error conditions are kept
  exactly as the source has them.
* Asynchronous operations are modelled as completing in program order; errors
  are modelled in an Except component while the state component always carries
  the mutations performed before the failure (JavaScript exceptions do not
  roll state back).
-/

namespace StoreModel

/-- Model of the JavaScript values stored and navigated by the store: null and
undefined are distinct, numbers are modelled as integers, objects are ordered
string-keyed field lists. -/
inductive JsVal : Type
  | null : JsVal
  | undef : JsVal
  | bool : Bool → JsVal
  | num : Int → JsVal
  | str : String → JsVal
  | arr : List JsVal → JsVal
  | obj : List (String × JsVal) → JsVal

/-- Loose equality against null, as in the source's a == null tests: true
exactly for null and undefined. -/
def JsVal.isNullish : JsVal → Bool
  | JsVal.null => true
  | JsVal.undef => true
  | _ => false

/-- Conversion of a value to a JavaScript property key string (object keys are
always strings; indexing a plain object with undefined uses the key
"undefined").  Array and object cases are abbreviated forms of the JavaScript
default stringification; no modelled claim indexes the map with a composite
value whose precise text matters. -/
def JsVal.toKeyString : JsVal → String
  | JsVal.null => "null"
  | JsVal.undef => "undefined"
  | JsVal.bool b => if b then "true" else "false"
  | JsVal.num n => toString n
  | JsVal.str s => s
  | JsVal.arr _ => "[array]"
  | JsVal.obj _ => "[object Object]"

/-- MemoryStore.getId: reads the id property of the item; reading a property
of a non-object yields undefined. -/
def getIdVal : JsVal → JsVal
  | JsVal.obj fields => (fields.lookup "id").getD JsVal.undef
  | _ => JsVal.undef

/-- Property key under which an item is stored in the id map: the stringified
id property. -/
def idKeyOf (item : JsVal) : String :=
  (getIdVal item).toKeyString

/-- Splitting a character list on the slash character, as JSON pointer paths
are split into segments. -/
def splitOnSlash : List Char → List (List Char)
  | [] => [[]]
  | c :: rest =>
    let r := splitOnSlash rest
    if c = '/' then [] :: r else (c :: r.headD []) :: r.tail

/-- Segments of a property path string: split on slash, empty segments
dropped. -/
def pathSegments (path : String) : List String :=
  ((splitOnSlash path.toList).filter (fun l => l ≠ [])).map (fun cs => String.mk cs)

/-- Navigation of a segment list through a value: each segment reads a field
of an object; a missing field or a non-object yields undefined. -/
def navigateSegs : List String → JsVal → JsVal
  | [], v => v
  | s :: rest, JsVal.obj fields => navigateSegs rest ((fields.lookup s).getD JsVal.undef)
  | _ :: _, _ => JsVal.undef

/-- Modelled from the spec: JSON pointer navigation (src/src/patch/JsonPointer.ts
is not among the provided sources); createPointer splits a property path into
segments and navigate follows them, yielding undefined where a segment is
missing. -/
def navigate (path : String) (v : JsVal) : JsVal :=
  navigateSegs (pathSegments path) v

/-- JavaScript relational a < b restricted to the primitive leaf values the
sort comparator meets after navigation: numbers compare numerically, strings
lexicographically; other combinations (which JavaScript would coerce) are
modelled as false.  The claims under verification only exercise the nullish
branches and primitive comparisons. -/
def jsLt : JsVal → JsVal → Bool
  | JsVal.num a, JsVal.num b => a < b
  | JsVal.str a, JsVal.str b => a < b
  | _, _ => false

/-- JavaScript relational a > b, same restriction as jsLt. -/
def jsGt : JsVal → JsVal → Bool
  | JsVal.num a, JsVal.num b => a > b
  | JsVal.str a, JsVal.str b => a > b
  | _, _ => false

/-- sortValue from src/src/query/Sort.ts: nullish values compare equal to each
other and below every defined value; otherwise the relational operators
decide. -/
def sortValue (a b : JsVal) : Int :=
  if a.isNullish && b.isNullish then 0
  else if a.isNullish && !b.isNullish then -1
  else if b.isNullish && !a.isNullish then 1
  else if jsLt a b then -1
  else if jsGt a b then 1
  else 0

/-- flip from src/src/query/Sort.ts: multiplies the comparator's result
by -1. -/
def flip (comparator : JsVal → JsVal → Int) : JsVal → JsVal → Int :=
  fun a b => -1 * comparator a b

/-- comparatorOrProperty argument of createSort: either a raw comparator
function or a property path (the string and JsonPointer forms both reduce to a
path). -/
inductive CompOrProp : Type
  | func : (JsVal → JsVal → Int) → CompOrProp
  | prop : String → CompOrProp

/-- Whether the comparatorOrProperty argument is a raw function. -/
def CompOrProp.isFunc : CompOrProp → Bool
  | CompOrProp.func _ => true
  | CompOrProp.prop _ => false

/-- Comparator derived from a property path in createSort: compare the
navigated values with sortValue. -/
def propComparator (path : String) : JsVal → JsVal → Int :=
  fun a b => sortValue (navigate path a) (navigate path b)

/-- Sort query object as built by createSort: the effective comparator, the
isFunction flag captured at construction, the original argument, the
descending flag and the optional construction-time serializer (modelled on the
serializable content: property path and descending flag). -/
structure SortQ : Type where
  comparator : JsVal → JsVal → Int
  isFunction : Bool
  comparatorOrProperty : CompOrProp
  descending : Bool
  serializer : Option (String → Bool → String)

/-- createSort from src/src/query/Sort.ts: a function argument is used
directly as comparator, a property argument becomes a sortValue comparison of
the navigated values; a truthy descending flag flips the comparator. -/
def createSort (cp : CompOrProp) (descending : Bool)
    (serializer : Option (String → Bool → String)) : SortQ :=
  let isFunction := cp.isFunc
  let base :=
    match cp with
    | CompOrProp.func f => f
    | CompOrProp.prop p => propComparator p
  { comparator := if descending then flip base else base
    isFunction := isFunction
    comparatorOrProperty := cp
    descending := descending
    serializer := serializer }

/-- Stable insertion of an element into a comparator-sorted list: the new
element (originally earlier) goes before the first element it does not compare
strictly after. -/
def insertCmp (cmp : JsVal → JsVal → Int) (x : JsVal) : List JsVal → List JsVal
  | [] => [x]
  | y :: ys => if cmp x y ≤ 0 then x :: y :: ys else y :: insertCmp cmp x ys

/-- Result of JavaScript Array.prototype.sort with a consistent comparator: a
stable comparator-sort, realised as stable insertion sort. -/
def jsSortList (cmp : JsVal → JsVal → Int) : List JsVal → List JsVal
  | [] => []
  | x :: xs => insertCmp cmp x (jsSortList cmp xs)

/-- apply of a Sort query, from the source data.sort(comparator): the array
is sorted in place and the same array is returned.  Modelled as the pair of
the returned value and the post-call contents of the input array (both are
the sorted sequence, because sort mutates and returns its receiver). -/
def SortQ.applyOn (q : SortQ) (data : List JsVal) : List JsVal × List JsVal :=
  let sorted := jsSortList q.comparator data
  (sorted, sorted)

/-- Default serialize of a property Sort: the RQL-ish text built from the
property path and the descending flag. -/
def serializeSort (prop : String) (descending : Bool) : String :=
  "Sort(" ++ prop ++ ", " ++ (if descending then "-" else "+") ++ ")"

/-- toString of a Sort query: throws for a raw function comparator, otherwise
serializes with the call-site serializer, else the construction serializer,
else the default.  The func branch under a false isFunction flag is
unreachable for createSort-built values. -/
def SortQ.toStringRql (q : SortQ) (callSerializer : Option (String → Bool → String)) :
    Except String String :=
  if q.isFunction then
    Except.error "Cannot parse this sort type to an RQL query string"
  else
    match q.comparatorOrProperty with
    | CompOrProp.prop p =>
      Except.ok ((callSerializer.getD (q.serializer.getD serializeSort)) p q.descending)
    | CompOrProp.func _ => Except.ok ""

/-- Entry of the id map: the item together with its stored index into the
ordered data sequence. -/
structure MapEntry : Type where
  item : JsVal
  index : Nat

/-- The id map of a store: a JavaScript plain object keyed by id strings,
modelled as an association list in key insertion order. -/
abbrev IdMap : Type := List (String × MapEntry)

/-- Reading a key of the id map object. -/
def mapLookup (m : IdMap) (k : String) : Option MapEntry :=
  List.lookup k m

/-- Assigning a key of the id map object: overwrite in place when present,
append otherwise (JavaScript property assignment keeps key order). -/
def mapSet (m : IdMap) (k : String) (e : MapEntry) : IdMap :=
  if (List.lookup k m).isSome then
    m.map (fun p => if p.1 = k then (k, e) else p)
  else
    m ++ [(k, e)]

/-- Deleting a key of the id map object. -/
def mapRemove (m : IdMap) (k : String) : IdMap :=
  m.filter (fun p => p.1 ≠ k)

/-- Queries a store can hold, first order so that states are comparable: a
Range (start and count) and a property-path Sort. -/
inductive StoreQuery : Type
  | range : Nat → Nat → StoreQuery
  | sortProp : String → Bool → StoreQuery

/-- Sequence returned by apply of a query.  The sortProp case is the value
returned by createSort's in-place applyOn (the in-place effect on the array
itself is tracked by applyQueriesM below).  The range case is modelled from
the spec: Range.apply returns the sub-sequence from start of length count,
clamped to the available length (src/src/query/Range.ts is not among the
provided sources); slicing yields a fresh array. -/
def StoreQuery.apply : StoreQuery → List JsVal → List JsVal
  | StoreQuery.range start count, l => (l.drop start).take count
  | StoreQuery.sortProp p d, l =>
    ((createSort (CompOrProp.prop p) d none).applyOn l).1

/-- Left fold of the apply values of a query list over a data sequence, as in
queries.reduce((prev, next) => next.apply(prev), data), value level. -/
def applyQueries (qs : List StoreQuery) (data : List JsVal) : List JsVal :=
  qs.foldl (fun acc q => q.apply acc) data

/-- The same reduce, tracking the in-place effect on the array the fold
starts from alongside the returned sequence.  Sort.apply is
data.sort(comparator): it mutates its receiver and returns that same array,
so while only Sorts have run the accumulator still IS the starting array and
every reorder lands in it; Range.apply returns a fresh sub-array, after
which the starting array is no longer touched.  First component: the
sequence the reduce returns; second component: the final contents of the
starting array. -/
def applyQueriesM : List StoreQuery → List JsVal → List JsVal × List JsVal
  | [], data => (data, data)
  | StoreQuery.sortProp p d :: rest, data =>
    applyQueriesM rest ((createSort (CompOrProp.prop p) d none).applyOn data).2
  | StoreQuery.range start count :: rest, data =>
    ((applyQueriesM rest ((data.drop start).take count)).1, data)

/-- State of one store: the ordered cached data, the id map, the version
counter, the query list defining the view, and the live-tracking flag. -/
structure MemState : Type where
  data : List JsVal
  map : IdMap
  version : Nat
  queries : List StoreQuery
  isLive : Bool

/-- Failure modes of the modelled operations: the two duplicate-id Error
throws of the source, and the TypeError JavaScript raises when a property of
an undefined map entry is read (the source has no explicit absent-id check). -/
inductive StoreErr : Type
  | duplicateId : StoreErr
  | duplicateInMap : StoreErr
  | undefinedAccess : StoreErr
deriving DecidableEq

/-- BaseStore.buildMap called with an explicit target map (the duplicate check
is disabled in that case): each item of the collection is written under its id
key with its index WITHIN THE PASSED COLLECTION. -/
def buildMapInto (collection : List JsVal) (m : IdMap) : IdMap :=
  collection.enum.foldl (fun acc p => mapSet acc (idKeyOf p.2) ⟨p.2, p.1⟩) m

/-- BaseStore.buildMap called without a target map: entries accumulate into a
fresh map and a duplicate id in the collection throws. -/
def buildMapFresh (collection : List JsVal) : Except StoreErr IdMap :=
  collection.enum.foldlM
    (fun acc p =>
      if (mapLookup acc (idKeyOf p.2)).isSome then
        Except.error StoreErr.duplicateInMap
      else
        Except.ok (mapSet acc (idKeyOf p.2) ⟨p.2, p.1⟩))
    []

/-- MemoryStore._add for the item bound by the spread call: duplicate id in
the map throws, otherwise the item is pushed at the end of the ordered data
and mapped under its id at the last index.  The returned value is the added
item (the caller reads result.item). -/
def memAddPrim (s : MemState) (item : JsVal) : MemState × Except StoreErr JsVal :=
  let k := idKeyOf item
  match mapLookup s.map k with
  | some _ => (s, Except.error StoreErr.duplicateId)
  | none =>
    let data := s.data ++ [item]
    ({ s with data := data, map := mapSet s.map k ⟨item, data.length - 1⟩ },
      Except.ok item)

/-- MemoryStore._delete: version++ first; the entry of an absent id is
undefined and reading its index is a TypeError; otherwise the map key is
deleted, the item spliced out of the ordered data, and the map rebuilt from
the slice of the new data starting at the deleted index — buildMapInto
assigns indices within that slice, so they restart at zero.  Returns the
deleted id (the caller reads result.id). -/
def memDeletePrim (s : MemState) (id : String) : MemState × Except StoreErr String :=
  let s1 := { s with version := s.version + 1 }
  match mapLookup s1.map id with
  | none => (s1, Except.error StoreErr.undefinedAccess)
  | some entry =>
    let data := s1.data.eraseIdx entry.index
    let m := buildMapInto (data.drop entry.index) (mapRemove s1.map id)
    ({ s1 with data := data, map := m }, Except.ok id)

/-- MemoryStore._fetch: the queries parameter is bound but never read; the
store's own query list is reduced over the store's own data.  The reduce
starts on this.data itself, so leading Sort queries reorder the store's data
array in place: the call produces both the returned sequence and the updated
store. -/
def memFetchPrimM (s : MemState) (queries : List StoreQuery) :
    List JsVal × MemState :=
  ((applyQueriesM s.queries s.data).1,
   { s with data := (applyQueriesM s.queries s.data).2 })

/-- MemoryStore._get for one id, value level: duplicate (dojo-core lang's
deep clone, an external collaborator) returns a structurally equal copy of
the mapped item; an absent id makes reading .item a TypeError.  The aliasing
aspect of duplicate is modelled separately on the heap below. -/
def memGet (s : MemState) (id : String) : Except StoreErr JsVal :=
  match mapLookup s.map id with
  | some e => Except.ok e.item
  | none => Except.error StoreErr.undefinedAccess

/-- BaseStore.add on a store without a source: the version is incremented
before _add runs (so it stays incremented when _add fails), then _add is
called with the arguments spread — only the first argument binds to the item
parameter; an empty call reads the id property of undefined.  The successful
result list carries the added item. -/
def rootAdd (s : MemState) (args : List JsVal) : MemState × Except StoreErr (List JsVal) :=
  let s1 := { s with version := s.version + 1 }
  match args with
  | [] => (s1, Except.error StoreErr.undefinedAccess)
  | item :: _ =>
    match memAddPrim s1 item with
    | (s2, Except.ok it) => (s2, Except.ok [it])
    | (s2, Except.error e) => (s2, Except.error e)

/-- BaseStore.delete on a store without a source: the version is incremented
first, then _delete is called with the ids spread — only the first id binds
to the id parameter; an empty call indexes the map with undefined, that is
with the key "undefined". -/
def rootDelete (s : MemState) (ids : List String) : MemState × Except StoreErr (List String) :=
  let s1 := { s with version := s.version + 1 }
  let firstId := ids.headD "undefined"
  match memDeletePrim s1 firstId with
  | (s2, Except.ok i) => (s2, Except.ok [i])
  | (s2, Except.error e) => (s2, Except.error e)

/-- BaseStore.fetch.  A present source is a root store (sources do not
chain); this.source.fetch(this.queries) on a root reduces to the source's
_fetch, which ignores its argument.  On a version mismatch the view's data is
recomputed by folding the view's queries over the source data, the version is
synchronised, and, when live, the map is rebuilt afresh from the new data
(its duplicate throw surfacing as the call's failure after data and version
are already assigned).  Otherwise the view's own _fetch answers, returning
the fold over the cached data and reordering that cached array in place
through its leading Sort queries.  In the recompute branch, fullData is the
sequence this.source.fetch(this.queries) returns; the in-place traffic that
call causes on the source's own array (and on the handed-over array under
the view's fold) stays outside the view state this function returns, and no
theorem below draws a conclusion about the source's post-call state. -/
def fetchBS (v : MemState) (src : Option MemState) (queries : List StoreQuery) :
    MemState × Except StoreErr (List JsVal) :=
  match src with
  | some s =>
    if v.version ≠ s.version then
      let fullData := applyQueries s.queries s.data
      let data := applyQueries v.queries fullData
      let v1 := { v with version := s.version, data := data }
      if v.isLive then
        match buildMapFresh data with
        | Except.ok m => ({ v1 with map := m }, Except.ok data)
        | Except.error e => (v1, Except.error e)
      else
        (v1, Except.ok data)
    else
      ((memFetchPrimM v queries).2, Except.ok (memFetchPrimM v queries).1)
  | none => ((memFetchPrimM v queries).2, Except.ok (memFetchPrimM v queries).1)

/-- Whether a query is a Range, as _put's hasRangeQuery test. -/
def StoreQuery.isRange : StoreQuery → Bool
  | StoreQuery.range _ _ => true
  | StoreQuery.sortProp _ _ => false

/-- MemoryStore._put for one full item (the areItems branch): the map entry
of the item's id is read (absent makes it a TypeError), the item is written
over data at the stored index, then the new data is taken from
source.fetch(queries) when the store has a source and a Range query and from
this._fetch(this.queries) otherwise, and the map is rebuilt afresh from it.
The version is never touched.  The in-place reorder _fetch's leading Sorts
cause on this.data is immediately superseded by the self.data = newData
assignment to the fold's value, so the final data is the value modelled
here; the source-side in-place effects of source.fetch stay outside the
returned state, as in fetchBS. -/
def memPutItemPrim (s : MemState) (src : Option MemState) (item : JsVal) :
    MemState × Except StoreErr JsVal :=
  let k := idKeyOf item
  match mapLookup s.map k with
  | none => (s, Except.error StoreErr.undefinedAccess)
  | some entry =>
    let data1 := s.data.set entry.index item
    let hasRangeQuery := src.isSome && s.queries.any StoreQuery.isRange
    let data2 :=
      match hasRangeQuery, src with
      | true, some so => applyQueries so.queries so.data
      | _, _ => applyQueries s.queries data1
    match buildMapFresh data2 with
    | Except.ok m => ({ s with data := data2, map := m }, Except.ok item)
    | Except.error e => ({ s with data := data2 }, Except.error e)

/-- Constituent events a tracking view receives from its source. -/
inductive UpdEvent : Type
  | addE : JsVal → UpdEvent
  | updateE : JsVal → UpdEvent
  | deleteE : String → UpdEvent

/-- Whether an event is a delete event. -/
def UpdEvent.isDelete : UpdEvent → Bool
  | UpdEvent.deleteE _ => true
  | _ => false

/-- Application of one constituent event in propagateUpdate's forEach: the
corresponding storage primitive runs on the view's own state. -/
def applyEvent (src : Option MemState) (s : MemState) (e : UpdEvent) :
    MemState × Except StoreErr Unit :=
  match e with
  | UpdEvent.addE it =>
    let r := memAddPrim s it
    (r.1, r.2.map (fun _ => ()))
  | UpdEvent.updateE it =>
    let r := memPutItemPrim s src it
    (r.1, r.2.map (fun _ => ()))
  | UpdEvent.deleteE id =>
    let r := memDeletePrim s id
    (r.1, r.2.map (fun _ => ()))

/-- Sequential application of the constituent events; a failing event keeps
the state reached so far and stops the remaining ones. -/
def applyEvents (src : Option MemState) (s : MemState) :
    List UpdEvent → MemState × Except StoreErr Unit
  | [] => (s, Except.ok ())
  | e :: rest =>
    match applyEvent src s e with
    | (s1, Except.ok _) => applyEvents src s1 rest
    | (s1, Except.error err) => (s1, Except.error err)

/-- BaseStore.propagateUpdate: the constituent events of the received batch
are unwrapped, the version is incremented once (guarded by the version being
defined, which it always is here) and then again by the number of events, and
each event is applied with the matching storage primitive.  Completion of the
asynchronous handlers is modelled in program order. -/
def propagateUpdate (src : Option MemState) (v : MemState) (events : List UpdEvent) :
    MemState × Except StoreErr Unit :=
  let v1 := { v with version := v.version + 1 + events.length }
  applyEvents src v1 events

/-- Call made on the source store by a forwarding method of a derived view. -/
inductive SourceCall : Type
  | getC : List String → SourceCall
  | addC : List JsVal → SourceCall
  | putC : List JsVal → SourceCall
  | deleteC : List String → SourceCall

/-- BaseStore.get on a store with a source: return this.source.get(...ids) —
the ids are spread, the call is verbatim; the view state is untouched. -/
def forwardGet (v : MemState) (ids : List String) : MemState × SourceCall :=
  (v, SourceCall.getC ids)

/-- BaseStore.add on a store with a source: return this.source.add(items) —
the variadic argument array is passed as ONE argument, so the source receives
a single array-valued item; the view state is untouched. -/
def forwardAdd (v : MemState) (args : List JsVal) : MemState × SourceCall :=
  (v, SourceCall.addC [JsVal.arr args])

/-- BaseStore.put on a store with a source: return
this.source.put(itemsOrPatches) — the variadic argument array is passed as
ONE argument; the view state is untouched. -/
def forwardPut (v : MemState) (args : List JsVal) : MemState × SourceCall :=
  (v, SourceCall.putC [JsVal.arr args])

/-- BaseStore.delete on a store with a source: return
this.source.delete(...ids) — the ids are spread, the call is verbatim; the
view state is untouched. -/
def forwardDelete (v : MemState) (ids : List String) : MemState × SourceCall :=
  (v, SourceCall.deleteC ids)

/-- Heap of item cells, for the aliasing behaviour of _get: a reference is an
index into the cell list. -/
structure Heap : Type where
  cells : List JsVal

/-- Reading a heap reference. -/
def Heap.read (h : Heap) (r : Nat) : JsVal :=
  h.cells.getD r JsVal.undef

/-- Allocating a fresh cell holding a value. -/
def Heap.alloc (h : Heap) (v : JsVal) : Heap × Nat :=
  (⟨h.cells ++ [v]⟩, h.cells.length)

/-- Overwriting the cell a reference designates, modelling a caller mutating
the item it was handed. -/
def Heap.write (h : Heap) (r : Nat) (v : JsVal) : Heap :=
  ⟨h.cells.set r v⟩

/-- duplicate of dojo-core lang (external collaborator): a deep clone — the
full item value is copied into a fresh cell, sharing no cell with the
original. -/
def duplicateRef (h : Heap) (r : Nat) : Heap × Nat :=
  h.alloc (h.read r)

/-- Map entry of the heap-level store: reference and stored index. -/
structure RefEntry : Type where
  ref : Nat
  index : Nat

/-- Heap-level view of a root MemoryStore: data and map hold references into
the heap. -/
structure RefStore : Type where
  dataRefs : List Nat
  mapRefs : List (String × RefEntry)
  version : Nat

/-- MemoryStore._get for one present id, heap level:
duplicate(this.map[id].item). -/
def refGet (h : Heap) (s : RefStore) (id : String) : Option (Heap × Nat) :=
  (List.lookup id s.mapRefs).map (fun e => duplicateRef h e.ref)

/-- Item with the given id, used by the concrete evaluations below. -/
def oid (i : String) : JsVal :=
  JsVal.obj [("id", JsVal.str i)]

/-- Three-item root store in a consistent state, the delete re-index input. -/
def sC1 : MemState :=
  ⟨[oid "1", oid "2", oid "3"],
   [("1", ⟨oid "1", 0⟩), ("2", ⟨oid "2", 1⟩), ("3", ⟨oid "3", 2⟩)], 1, [], false⟩

/-- Derived view in cache-hit state: version synchronised with its source and
data already holding the Range-transformed sequence. -/
def vC2 : MemState :=
  ⟨[oid "2"], [], 5, [StoreQuery.range 1 1], false⟩

/-- Root source of the cache-hit view. -/
def sC2 : MemState :=
  ⟨[oid "1", oid "2"], [("1", ⟨oid "1", 0⟩), ("2", ⟨oid "2", 1⟩)], 5, [], false⟩

/-- Stale derived view (version behind its source), for the recompute case. -/
def vC2w : MemState :=
  ⟨[], [], 1, [], false⟩

/-- Root source one version ahead of vC2w. -/
def sC2w : MemState :=
  ⟨[oid "1"], [("1", ⟨oid "1", 0⟩)], 2, [], false⟩

/-- Live tracking view receiving source events. -/
def vC3 : MemState :=
  ⟨[oid "1"], [("1", ⟨oid "1", 0⟩)], 7, [], true⟩

/-- Root source of the tracking view. -/
def srcC3 : MemState :=
  ⟨[oid "1"], [("1", ⟨oid "1", 0⟩)], 7, [], false⟩

/-- Batch of two applicable events: one add, one delete. -/
def esC3 : List UpdEvent :=
  [UpdEvent.addE (oid "2"), UpdEvent.deleteE "1"]

/-- One-item root store holding the item with id 1, after a first add. -/
def sC5 : MemState :=
  ⟨[oid "1"], [("1", ⟨oid "1", 0⟩)], 2, [], false⟩

/-- Heap holding a single stored item. -/
def hC9 : Heap :=
  ⟨[oid "1"]⟩

/-- Heap-level store referencing that item from data and map. -/
def rsC9 : RefStore :=
  ⟨[0], [("1", ⟨0, 0⟩)], 1⟩

/-- C8: toString of a Sort query fails with the not-serializable error exactly
when the Sort was constructed from a raw comparator function, whatever
serializers are installed or passed; a property-path Sort serializes to a
string without failing. -/
theorem sort_toString_fails_iff_function (cp : CompOrProp) (d : Bool)
    (ser callSer : Option (String → Bool → String)) :
    ((createSort cp d ser).toStringRql callSer).isOk = !cp.isFunc ∧
    (cp.isFunc = true →
      (createSort cp d ser).toStringRql callSer =
        Except.error "Cannot parse this sort type to an RQL query string") := by
  cases cp with
  | func f => exact ⟨rfl, fun _ => rfl⟩
  | prop p => exact ⟨rfl, fun h => by cases h⟩

/-- Concrete instantiation of the C8 theorem: a function Sort fails to
serialize with the not-serializable error, a property Sort succeeds. -/
theorem sort_toString_fails_iff_function_witness :
    ((createSort (CompOrProp.func (fun _ _ => 0)) false none).toStringRql none).isOk =
      !(CompOrProp.func (fun _ _ => 0)).isFunc ∧
    (createSort (CompOrProp.func (fun _ _ => 0)) false none).toStringRql none =
      Except.error "Cannot parse this sort type to an RQL query string" ∧
    ((createSort (CompOrProp.prop "p") false none).toStringRql none).isOk =
      !(CompOrProp.prop "p").isFunc :=
  ⟨(sort_toString_fails_iff_function (CompOrProp.func (fun _ _ => 0)) false none none).1,
   (sort_toString_fails_iff_function (CompOrProp.func (fun _ _ => 0)) false none none).2 rfl,
   (sort_toString_fails_iff_function (CompOrProp.prop "p") false none none).1⟩

/-- The sequence the query reduce returns is the pure left fold of the apply
values, whatever the in-place traffic underneath. -/
theorem applyQueriesM_fst (qs : List StoreQuery) :
    ∀ data : List JsVal, (applyQueriesM qs data).1 = applyQueries qs data := by
  induction qs with
  | nil =>
    intro data
    rfl
  | cons q rest ih =>
    intro data
    cases q with
    | range start count =>
      simp [applyQueriesM, applyQueries, List.foldl_cons, ih, StoreQuery.apply]
    | sortProp p d =>
      simp [applyQueriesM, applyQueries, List.foldl_cons, ih, StoreQuery.apply,
        SortQ.applyOn]

/-- C10: fetch on a root MemoryStore (no source) ignores its queries argument
entirely — every argument list produces exactly the outcome of the
argument-free call: the same returned sequence, namely the store's own query
list folded over its data, and the same post-call store. -/
theorem root_fetch_ignores_queries (s : MemState) (qs : List StoreQuery) :
    fetchBS s none qs = fetchBS s none [] ∧
    (fetchBS s none qs).2 = Except.ok (applyQueries s.queries s.data) := by
  refine ⟨rfl, ?_⟩
  simp [fetchBS, memFetchPrimM, applyQueriesM_fst]

/-- C7: for a Sort built from a property path, the ascending comparator
returns -1 when the first navigated value is null or undefined and the second
is defined, 0 when both are; the descending comparator is the pointwise
negation of the ascending one, so its sign is flipped on every pair and ties
stay 0. -/
theorem sort_comparator_nullish_flip (path : String) (a b : JsVal) :
    ((navigate path a).isNullish = true → (navigate path b).isNullish = false →
      (createSort (CompOrProp.prop path) false none).comparator a b = -1) ∧
    ((navigate path a).isNullish = true → (navigate path b).isNullish = true →
      (createSort (CompOrProp.prop path) false none).comparator a b = 0) ∧
    ((createSort (CompOrProp.prop path) true none).comparator a b =
      -((createSort (CompOrProp.prop path) false none).comparator a b)) ∧
    ((createSort (CompOrProp.prop path) false none).comparator a b = 0 →
      (createSort (CompOrProp.prop path) true none).comparator a b = 0) := by
  refine ⟨?_, ?_, ?_, ?_⟩
  · intro ha hb
    simp [createSort, propComparator, sortValue, ha, hb]
  · intro ha hb
    simp [createSort, propComparator, sortValue, ha, hb]
  · simp [createSort, flip, propComparator]
  · intro h
    simp [createSort, flip, propComparator] at h ⊢
    simp [h]

/-- Concrete instantiation of the C7 theorem: a missing property is nullish
and sorts before a defined one, and the descending comparator negates the
ascending result. -/
theorem sort_comparator_nullish_flip_witness :
    ((navigate "p" (JsVal.obj [])).isNullish = true ∧
     (navigate "p" (JsVal.obj [("p", JsVal.num 1)])).isNullish = false) ∧
    (createSort (CompOrProp.prop "p") false none).comparator
      (JsVal.obj []) (JsVal.obj [("p", JsVal.num 1)]) = -1 ∧
    (createSort (CompOrProp.prop "p") true none).comparator
      (JsVal.obj []) (JsVal.obj [("p", JsVal.num 1)]) =
      -((createSort (CompOrProp.prop "p") false none).comparator
          (JsVal.obj []) (JsVal.obj [("p", JsVal.num 1)])) :=
  ⟨⟨rfl, rfl⟩,
   (sort_comparator_nullish_flip "p" (JsVal.obj []) (JsVal.obj [("p", JsVal.num 1)])).1
     rfl rfl,
   (sort_comparator_nullish_flip "p" (JsVal.obj []) (JsVal.obj [("p", JsVal.num 1)])).2.2.1⟩

/-- C4 amended: apply of a Sort query returns the comparator-sorted sequence
and leaves the input array holding that same sorted sequence — the sort is in
place, so the input is mutated rather than unchanged; apply is deterministic,
equal inputs give equal results. -/
theorem sort_apply_in_place (cp : CompOrProp) (d : Bool) (l l2 : List JsVal) :
    (createSort cp d none).applyOn l =
      (jsSortList (createSort cp d none).comparator l,
       jsSortList (createSort cp d none).comparator l) ∧
    (l = l2 → (createSort cp d none).applyOn l = (createSort cp d none).applyOn l2) :=
  ⟨rfl, fun h => by rw [h]⟩

/-- Concrete instantiation of the C4 theorem. -/
theorem sort_apply_in_place_witness :
    (createSort (CompOrProp.prop "p") false none).applyOn [oid "1"] =
      (jsSortList (createSort (CompOrProp.prop "p") false none).comparator [oid "1"],
       jsSortList (createSort (CompOrProp.prop "p") false none).comparator [oid "1"]) ∧
    (createSort (CompOrProp.prop "p") false none).applyOn [oid "1"] =
      (createSort (CompOrProp.prop "p") false none).applyOn [oid "1"] :=
  ⟨(sort_apply_in_place (CompOrProp.prop "p") false [oid "1"] [oid "1"]).1,
   (sort_apply_in_place (CompOrProp.prop "p") false [oid "1"] [oid "1"]).2 rfl⟩

/-- C4 counterexample: after apply of an ascending property Sort on a
two-element unsorted array, the input array no longer holds its original
contents — apply is not input-preserving. -/
theorem sort_apply_mutates_input :
    (((createSort (CompOrProp.prop "p") false none).applyOn
        [JsVal.obj [("p", JsVal.num 2)], JsVal.obj [("p", JsVal.num 1)]]).2 ≠
      [JsVal.obj [("p", JsVal.num 2)], JsVal.obj [("p", JsVal.num 1)]]) := by
  have heval :
      (((createSort (CompOrProp.prop "p") false none).applyOn
          [JsVal.obj [("p", JsVal.num 2)], JsVal.obj [("p", JsVal.num 1)]]).2 =
        [JsVal.obj [("p", JsVal.num 1)], JsVal.obj [("p", JsVal.num 2)]]) := rfl
  rw [heval]
  simp

/-- C5 amended: adding an item whose id is already present in the map fails
with the duplicate-id error; the data and map — hence what get returns for
the first item — are unchanged; the version counter, incremented before _add
runs, remains incremented by the failed call. -/
theorem add_duplicate_id_effects (s : MemState) (item : JsVal)
    (h : (mapLookup s.map (idKeyOf item)).isSome = true) :
    (rootAdd s [item]).2 = Except.error StoreErr.duplicateId ∧
    (rootAdd s [item]).1.data = s.data ∧
    (rootAdd s [item]).1.map = s.map ∧
    (rootAdd s [item]).1.version = s.version + 1 ∧
    (∀ id, memGet (rootAdd s [item]).1 id = memGet s id) := by
  rcases ho : mapLookup s.map (idKeyOf item) with _ | e
  · rw [ho] at h
    cases h
  · refine ⟨?_, ?_, ?_, ?_, ?_⟩ <;>
      simp [rootAdd, memAddPrim, ho, memGet]

/-- Concrete instantiation of the C5 theorem: re-adding the item with id 1 to
a store already holding it. -/
theorem add_duplicate_id_effects_witness :
    (mapLookup sC5.map (idKeyOf (oid "1"))).isSome = true ∧
    (rootAdd sC5 [oid "1"]).2 = Except.error StoreErr.duplicateId ∧
    (rootAdd sC5 [oid "1"]).1.map = sC5.map ∧
    (rootAdd sC5 [oid "1"]).1.version = sC5.version + 1 :=
  ⟨rfl,
   (add_duplicate_id_effects sC5 (oid "1") rfl).1,
   (add_duplicate_id_effects sC5 (oid "1") rfl).2.2.1,
   (add_duplicate_id_effects sC5 (oid "1") rfl).2.2.2.1⟩

/-- C5 counterexample: after a successful add of the item with id 1 and a
second add of the same item, the second call fails with the duplicate-id
error but the store state is NOT unchanged — its version counter moved. -/
theorem add_duplicate_id_version_changes :
    (rootAdd (rootAdd ⟨[], [], 1, [], false⟩ [oid "1"]).1 [oid "1"]).2 =
      Except.error StoreErr.duplicateId ∧
    (rootAdd (rootAdd ⟨[], [], 1, [], false⟩ [oid "1"]).1 [oid "1"]).1.version ≠
      (rootAdd ⟨[], [], 1, [], false⟩ [oid "1"]).1.version := by
  refine ⟨rfl, ?_⟩
  show (3 : Nat) ≠ 2
  decide

/-- C6 amended: on a store with a source, delete and get forward verbatim
(the argument list is spread into the source call), while add and put pass
their whole argument array as a single argument, so the source receives one
array-valued item; in every case the derived view performs no write of its
own — its state is returned untouched and the only effect is the single
source call. -/
theorem forwarding_calls (v : MemState) (args : List JsVal) (ids : List String) :
    forwardDelete v ids = (v, SourceCall.deleteC ids) ∧
    forwardGet v ids = (v, SourceCall.getC ids) ∧
    forwardAdd v args = (v, SourceCall.addC [JsVal.arr args]) ∧
    forwardPut v args = (v, SourceCall.putC [JsVal.arr args]) :=
  ⟨rfl, rfl, rfl, rfl⟩

/-- C6 counterexample: forwarding add of one item is not the same call as the
direct add — the source is called with the wrapped array — and executing the
wrapped call on a fresh root store gives a different state and result from
the direct call. -/
theorem forward_add_not_verbatim :
    (forwardAdd ⟨[], [], 1, [], false⟩ [oid "1"]).2 ≠ SourceCall.addC [oid "1"] ∧
    rootAdd ⟨[], [], 1, [], false⟩ [JsVal.arr [oid "1"]] ≠
      rootAdd ⟨[], [], 1, [], false⟩ [oid "1"] := by
  constructor
  · have heval : (forwardAdd ⟨[], [], 1, [], false⟩ [oid "1"]).2 =
        SourceCall.addC [JsVal.arr [oid "1"]] := rfl
    rw [heval]
    simp [oid]
  · have h1 : rootAdd ⟨[], [], 1, [], false⟩ [JsVal.arr [oid "1"]] =
        (⟨[JsVal.arr [oid "1"]], [("undefined", ⟨JsVal.arr [oid "1"], 0⟩)], 2, [], false⟩,
         Except.ok [JsVal.arr [oid "1"]]) := rfl
    have h2 : rootAdd ⟨[], [], 1, [], false⟩ [oid "1"] =
        (⟨[oid "1"], [("1", ⟨oid "1", 0⟩)], 2, [], false⟩, Except.ok [oid "1"]) := rfl
    rw [h1, h2]
    simp [oid]

/-- C2 amended: on a store with a source, fetch recomputes exactly when the
cached version differs from the source's: it re-applies the store's own query
list to the source's latest data, synchronises the version, and when live
rebuilds the map from the recomputed data in the same call.  When the
versions are equal no source access happens: the version, map and query list
are unchanged and the cached data array is only reordered in place by the
fold's leading Sort queries, while the returned sequence is the store's query
list re-applied to the cached data — which need not equal the cached
sequence itself. -/
theorem fetch_cache_behavior (v s : MemState) (qs : List StoreQuery) :
    (v.version ≠ s.version →
      ((fetchBS v (some s) qs).1.data =
          applyQueries v.queries (applyQueries s.queries s.data) ∧
       (fetchBS v (some s) qs).1.version = s.version ∧
       (v.isLive = false →
          (fetchBS v (some s) qs).1.map = v.map ∧
          (fetchBS v (some s) qs).2 =
            Except.ok (applyQueries v.queries (applyQueries s.queries s.data))) ∧
       (v.isLive = true →
          ∀ m, buildMapFresh (applyQueries v.queries (applyQueries s.queries s.data)) =
                 Except.ok m →
            (fetchBS v (some s) qs).1.map = m ∧
            (fetchBS v (some s) qs).2 =
              Except.ok (applyQueries v.queries (applyQueries s.queries s.data))))) ∧
    (v.version = s.version →
      fetchBS v (some s) qs =
        ({ v with data := (applyQueriesM v.queries v.data).2 },
         Except.ok (applyQueries v.queries v.data))) := by
  constructor
  · intro hne
    rcases hl : v.isLive with _ | _
    · refine ⟨?_, ?_, fun _ => ⟨?_, ?_⟩, fun hlt => nomatch hlt⟩ <;>
        simp [fetchBS, hne, hl]
    · refine ⟨?_, ?_, ?_, ?_⟩
      · rcases hb : buildMapFresh (applyQueries v.queries (applyQueries s.queries s.data)) with e | m <;>
          simp [fetchBS, hne, hl, hb]
      · rcases hb : buildMapFresh (applyQueries v.queries (applyQueries s.queries s.data)) with e | m <;>
          simp [fetchBS, hne, hl, hb]
      · intro hlf
        simp at hlf
      · intro _ m hm
        constructor <;> simp [fetchBS, hne, hl, hm]
  · intro heq
    simp [fetchBS, heq, memFetchPrimM, applyQueriesM_fst]

/-- Concrete instantiation of the C2 theorem in both regimes: a stale view
recomputes and synchronises its version; a synchronised view keeps version
and map, its cached array holding the in-place effect of its query list. -/
theorem fetch_cache_behavior_witness :
    (vC2w.version ≠ sC2w.version ∧
     (fetchBS vC2w (some sC2w) []).1.version = sC2w.version) ∧
    (vC2.version = sC2.version ∧
     fetchBS vC2 (some sC2) [] =
       ({ vC2 with data := (applyQueriesM vC2.queries vC2.data).2 },
        Except.ok (applyQueries vC2.queries vC2.data))) :=
  ⟨⟨by decide, ((fetch_cache_behavior vC2w sC2w []).1 (by decide)).2.1⟩,
   ⟨rfl, (fetch_cache_behavior vC2 sC2 []).2 rfl⟩⟩

/-- C2 counterexample: a cache-hit fetch on a view with a Range query does
not serve the cached sequence — the Range is re-applied to the already
transformed cached data, giving a different sequence. -/
theorem fetch_cache_hit_not_cached :
    vC2.version = sC2.version ∧
    (fetchBS vC2 (some sC2) []).2 ≠ Except.ok vC2.data := by
  refine ⟨rfl, ?_⟩
  have h1 : (fetchBS vC2 (some sC2) []).2 = Except.ok [] := rfl
  have h2 : vC2.data = [oid "2"] := rfl
  rw [h1, h2]
  simp

/-- The _add primitive never touches the version counter. -/
theorem memAddPrim_version (s : MemState) (it : JsVal) :
    (memAddPrim s it).1.version = s.version := by
  unfold memAddPrim
  rcases h : mapLookup s.map (idKeyOf it) with _ | e <;> simp [h]

/-- The _put primitive never touches the version counter. -/
theorem memPutItemPrim_version (s : MemState) (src : Option MemState) (it : JsVal) :
    (memPutItemPrim s src it).1.version = s.version := by
  unfold memPutItemPrim
  rcases h : mapLookup s.map (idKeyOf it) with _ | e
  · simp [h]
  · simp only [h]
    split <;> rfl

/-- The _delete primitive increments the version counter by one, before any
other work (also on failure). -/
theorem memDeletePrim_version (s : MemState) (id : String) :
    (memDeletePrim s id).1.version = s.version + 1 := by
  unfold memDeletePrim
  rcases h : mapLookup s.map id with _ | e <;> simp [h]

/-- Version effect of one propagated event: delete events add one, add and
update events add nothing. -/
theorem applyEvent_version (src : Option MemState) (s : MemState) (e : UpdEvent) :
    (applyEvent src s e).1.version = s.version + (if e.isDelete then 1 else 0) := by
  cases e with
  | addE it => simp [applyEvent, UpdEvent.isDelete, memAddPrim_version]
  | updateE it => simp [applyEvent, UpdEvent.isDelete, memPutItemPrim_version]
  | deleteE id => simp [applyEvent, UpdEvent.isDelete, memDeletePrim_version]

/-- Version effect of a successfully applied event sequence: one increment
per delete event. -/
theorem applyEvents_version (src : Option MemState) (es : List UpdEvent) :
    ∀ s : MemState, (applyEvents src s es).2 = Except.ok () →
      (applyEvents src s es).1.version =
        s.version + es.countP (fun e => e.isDelete) := by
  induction es with
  | nil =>
    intro s _
    simp [applyEvents]
  | cons e rest ih =>
    intro s h
    have hv := applyEvent_version src s e
    rcases he : applyEvent src s e with ⟨s1, r⟩
    rw [he] at hv
    rcases r with err | u
    · rw [applyEvents, he] at h
      cases h
    · rw [applyEvents, he] at h ⊢
      rw [ih s1 h, hv, List.countP_cons]
      cases hd : e.isDelete <;> simp [hd] <;> omega

/-- C3 amended: a live tracking view receiving a batch of N constituent
events that all apply successfully increases its version counter not by N but
by 1 + N + d, where d is the number of delete events: one bump for the call,
one per constituent event, and one more inside the delete primitive. -/
theorem propagate_version_increase (src : Option MemState) (v : MemState)
    (events : List UpdEvent)
    (h : (propagateUpdate src v events).2 = Except.ok ()) :
    (propagateUpdate src v events).1.version =
      v.version + 1 + events.length + events.countP (fun e => e.isDelete) := by
  unfold propagateUpdate at h ⊢
  rw [applyEvents_version src events _ h]

/-- Concrete instantiation of the C3 theorem: a two-event batch (one add, one
delete) applies successfully and moves the version by 1 + 2 + 1. -/
theorem propagate_version_increase_witness :
    (propagateUpdate (some srcC3) vC3 esC3).2 = Except.ok () ∧
    (propagateUpdate (some srcC3) vC3 esC3).1.version =
      vC3.version + 1 + esC3.length + esC3.countP (fun e => e.isDelete) :=
  ⟨rfl, propagate_version_increase (some srcC3) vC3 esC3 rfl⟩

/-- C3 counterexample: a batch of a single add event applies successfully but
moves the tracking view's version by 2, not by the batch size 1. -/
theorem propagate_version_not_event_count :
    (propagateUpdate (some srcC3) vC3 [UpdEvent.addE (oid "2")]).2 = Except.ok () ∧
    (propagateUpdate (some srcC3) vC3 [UpdEvent.addE (oid "2")]).1.version ≠
      vC3.version + 1 := by
  refine ⟨rfl, ?_⟩
  show (9 : Nat) ≠ 8
  decide

/-- A successful key lookup comes from a member pair of the list. -/
theorem lookup_mem {α β : Type} [BEq α] [LawfulBEq α] {k : α} {v : β} :
    ∀ {l : List (α × β)}, List.lookup k l = some v → (k, v) ∈ l := by
  intro l
  induction l with
  | nil =>
    intro h
    cases h
  | cons p rest ih =>
    rcases p with ⟨a, b⟩
    intro h
    by_cases hk : k = a
    · subst hk
      simp [List.lookup] at h
      subst h
      exact List.mem_cons_self _ _
    · have hne : (k == a) = false := beq_false_of_ne hk
      simp [List.lookup, hne] at h
      exact List.mem_cons_of_mem _ (ih h)

/-- Reading the freshly allocated cell gives the value put into it. -/
theorem heap_read_fresh (cells : List JsVal) (x : JsVal) :
    Heap.read ⟨cells ++ [x]⟩ cells.length = x := by
  simp [Heap.read, List.getD]

/-- Writing the freshly allocated cell does not change what any older
reference reads. -/
theorem heap_write_fresh_preserves (cells : List JsVal) (x v : JsVal) (r0 : Nat)
    (h : r0 < cells.length) :
    (Heap.write ⟨cells ++ [x]⟩ cells.length v).read r0 = Heap.read ⟨cells⟩ r0 := by
  simp [Heap.write, Heap.read, List.getD]
  rw [List.getElem?_append_left h]

/-- C9: for a root MemoryStore whose references are valid, _get on a present
id allocates a fresh cell holding a value structurally equal to the stored
item, and overwriting that fresh cell (the caller mutating what it was
handed) changes nothing any store reference — data or map, hence also the
version — reads. -/
theorem get_returns_deep_copy (h : Heap) (s : RefStore) (id : String) (e : RefEntry)
    (hwfd : ∀ r0 ∈ s.dataRefs, r0 < h.cells.length)
    (hwfm : ∀ p ∈ s.mapRefs, p.2.ref < h.cells.length)
    (he : List.lookup id s.mapRefs = some e) :
    refGet h s id = some (⟨h.cells ++ [h.read e.ref]⟩, h.cells.length) ∧
    Heap.read ⟨h.cells ++ [h.read e.ref]⟩ h.cells.length = h.read e.ref ∧
    ∀ v : JsVal,
      (∀ r0 ∈ s.dataRefs,
        (Heap.write ⟨h.cells ++ [h.read e.ref]⟩ h.cells.length v).read r0 =
          h.read r0) ∧
      (∀ p ∈ s.mapRefs,
        (Heap.write ⟨h.cells ++ [h.read e.ref]⟩ h.cells.length v).read p.2.ref =
          h.read p.2.ref) := by
  refine ⟨?_, heap_read_fresh h.cells (h.read e.ref), ?_⟩
  · simp [refGet, he, duplicateRef, Heap.alloc]
  · intro v
    constructor
    · intro r0 hr0
      exact heap_write_fresh_preserves h.cells (h.read e.ref) v r0 (hwfd r0 hr0)
    · intro p hp
      exact heap_write_fresh_preserves h.cells (h.read e.ref) v p.2.ref (hwfm p hp)

/-- Concrete instantiation of the C9 theorem on a one-item store. -/
theorem get_returns_deep_copy_witness :
    refGet hC9 rsC9 "1" =
      some (⟨hC9.cells ++ [hC9.read (RefEntry.mk 0 0).ref]⟩, hC9.cells.length) ∧
    Heap.read ⟨hC9.cells ++ [hC9.read (RefEntry.mk 0 0).ref]⟩ hC9.cells.length =
      hC9.read (RefEntry.mk 0 0).ref ∧
    ∀ v : JsVal,
      (∀ r0 ∈ rsC9.dataRefs,
        (Heap.write ⟨hC9.cells ++ [hC9.read (RefEntry.mk 0 0).ref]⟩ hC9.cells.length v).read r0 =
          hC9.read r0) ∧
      (∀ p ∈ rsC9.mapRefs,
        (Heap.write ⟨hC9.cells ++ [hC9.read (RefEntry.mk 0 0).ref]⟩ hC9.cells.length v).read p.2.ref =
          hC9.read p.2.ref) :=
  get_returns_deep_copy hC9 rsC9 "1" (RefEntry.mk 0 0)
    (by intro r0 hr0; simp [rsC9] at hr0; simp [hr0, hC9])
    (by intro p hp; simp [rsC9] at hp; simp [hp, hC9])
    rfl

/-- C1: evaluation of delete at the failing input.  Deleting id 2 from a
consistent three-item store succeeds, but the surviving trailing entry for
id 3 keeps stored index 0 — the index within the sliced tail — while its item
sits at position 1 of the ordered data, so the claimed re-index invariant does
not hold. -/
theorem delete_reindex_bug_eval :
    (rootDelete sC1 ["2"]).2 = Except.ok ["2"] ∧
    (rootDelete sC1 ["2"]).1.data = [oid "1", oid "3"] ∧
    mapLookup (rootDelete sC1 ["2"]).1.map "3" = some ⟨oid "3", 0⟩ ∧
    (rootDelete sC1 ["2"]).1.data[1]? = some (oid "3") :=
  ⟨rfl, rfl, rfl, rfl⟩

end StoreModel
